import Mathlib

/-!
Verification of the media ingest/egress core (ffmpeg video decoder and
ffmpeg consumer) as a shallow embedding in Lean 4.

Decode side (src/modules/ffmpeg/producer/video/video_decoder.cpp):
pixel-format resolution (`get_pixel_format`, `get_pixel_format_desc`),
decoder construction with the BGRA software-conversion fallback, the
`decode` step with its per-instance sequence counter, and the bounded
`receive` loop.

Encode side (src/src/modules/ffmpeg/consumer/ffmpeg_consumer.cpp):
per-track `Stream` PTS stamping, filter-graph pad validation during
`Stream` construction, the consumer's bounded frame queue with its
try-push drop policy, one-shot initialization, and the media-thread /
packet-thread EOF-sentinel protocol.
-/

namespace Caspar

/-- Native (libavcodec) pixel formats that the decoder can meet.
`other` stands for every format outside the supported switch. -/
inductive AVPixelFormat
| gray8
| bgra
| argb
| rgba
| abgr
| yuv444p
| yuv422p
| yuv420p
| yuv411p
| yuv410p
| yuva420p
| other
deriving DecidableEq

/-- `core::pixel_format::type`. -/
inductive pixel_format
| gray
| bgra
| argb
| rgba
| abgr
| ycbcr
| ycbcra
| invalid
deriving DecidableEq

/-- `get_pixel_format` (video_decoder.cpp, lines 56-73): map a native
format to the portable enum, `invalid` for everything unsupported. -/
def get_pixel_format : AVPixelFormat → pixel_format
| .gray8 => .gray
| .bgra => .bgra
| .argb => .argb
| .rgba => .rgba
| .abgr => .abgr
| .yuv444p => .ycbcr
| .yuv422p => .ycbcr
| .yuv420p => .ycbcr
| .yuv411p => .ycbcr
| .yuv410p => .ycbcr
| .yuva420p => .ycbcra
| .other => .invalid

/-- `core::pixel_format_desc::plane` - (linesize, height, channels). -/
structure plane where
  linesize : Nat
  height : Nat
  channels : Nat
deriving DecidableEq

/-- `core::pixel_format_desc`. -/
structure pixel_format_desc where
  pix_fmt : pixel_format
  planes : List plane
deriving DecidableEq

/-- Horizontal chroma subsampling divisor (2 ^ log2_chroma_w) of the
native format, as used by `avpicture_fill` to compute chroma linesizes. -/
def chroma_w_div : AVPixelFormat → Nat
| .yuv444p => 1
| .yuv422p => 2
| .yuv420p => 2
| .yuv411p => 4
| .yuv410p => 4
| .yuva420p => 2
| _ => 1

/-- Vertical chroma subsampling divisor (2 ^ log2_chroma_h) of the
native format, as used by `avpicture_fill` to size the chroma planes. -/
def chroma_h_div : AVPixelFormat → Nat
| .yuv444p => 1
| .yuv422p => 1
| .yuv420p => 2
| .yuv411p => 1
| .yuv410p => 4
| .yuva420p => 2
| _ => 1

/-- `avpicture_fill` linesize of plane 0: 4 bytes per pixel for the
packed 4-channel formats, 1 byte per luma sample otherwise. -/
def av_linesize0 : AVPixelFormat → Nat → Nat
| .bgra, w => 4 * w
| .argb, w => 4 * w
| .rgba, w => 4 * w
| .abgr, w => 4 * w
| _, w => w

/-- `avpicture_fill` linesize of chroma planes 1 and 2:
ceil(width / horizontal subsampling divisor). -/
def av_linesize1 (fmt : AVPixelFormat) (w : Nat) : Nat :=
  (w + chroma_w_div fmt - 1) / chroma_w_div fmt

/-- `avpicture_fill` gap `data[2] - data[1]`: the byte size of chroma
plane 1, i.e. chroma linesize times ceil(height / vertical divisor). -/
def av_plane1_bytes (fmt : AVPixelFormat) (w h : Nat) : Nat :=
  av_linesize1 fmt w * ((h + chroma_h_div fmt - 1) / chroma_h_div fmt)

/-- `get_pixel_format_desc` (video_decoder.cpp, lines 75-118): build the
portable plane descriptor from `avpicture_fill`'s linesizes; the chroma
height `h2` is recovered as `(data[2] - data[1]) / linesize[1]`, exactly
as the source computes it. -/
def get_pixel_format_desc (pix_fmt : AVPixelFormat) (width height : Nat) :
    pixel_format_desc :=
  match get_pixel_format pix_fmt with
  | .gray => ⟨.gray, [⟨av_linesize0 pix_fmt width / 4, height, 1⟩]⟩
  | .bgra => ⟨.bgra, [⟨av_linesize0 pix_fmt width / 4, height, 4⟩]⟩
  | .argb => ⟨.argb, [⟨av_linesize0 pix_fmt width / 4, height, 4⟩]⟩
  | .rgba => ⟨.rgba, [⟨av_linesize0 pix_fmt width / 4, height, 4⟩]⟩
  | .abgr => ⟨.abgr, [⟨av_linesize0 pix_fmt width / 4, height, 4⟩]⟩
  | .ycbcr =>
      let h2 := av_plane1_bytes pix_fmt width height / av_linesize1 pix_fmt width
      ⟨.ycbcr,
        [⟨av_linesize0 pix_fmt width, height, 1⟩,
         ⟨av_linesize1 pix_fmt width, h2, 1⟩,
         ⟨av_linesize1 pix_fmt width, h2, 1⟩]⟩
  | .ycbcra =>
      let h2 := av_plane1_bytes pix_fmt width height / av_linesize1 pix_fmt width
      ⟨.ycbcra,
        [⟨av_linesize0 pix_fmt width, height, 1⟩,
         ⟨av_linesize1 pix_fmt width, h2, 1⟩,
         ⟨av_linesize1 pix_fmt width, h2, 1⟩,
         ⟨width, height, 1⟩]⟩
  | .invalid => ⟨.invalid, []⟩

/-- State of `video_decoder::implementation`: the resolved descriptor,
whether a software conversion context was allocated, and the frame
sequence counter. -/
structure DecoderImpl where
  desc : pixel_format_desc
  hasSws : Bool
  frame_number : Nat
deriving DecidableEq

/-- Construction of `video_decoder::implementation` (lines 133-155):
resolve the native format; on `invalid` fall back to the BGRA descriptor
and require a software scaling context (`sws_ok` models whether
`sws_getContext` succeeds); throw when it cannot be created. -/
def decoder_construct (pix_fmt : AVPixelFormat) (w h : Nat) (sws_ok : Bool) :
    Except String DecoderImpl :=
  let d := get_pixel_format_desc pix_fmt w h
  if d.pix_fmt = pixel_format.invalid then
    if sws_ok then
      Except.ok ⟨get_pixel_format_desc .bgra w h, true, 0⟩
    else
      Except.error "Could not create software scaling context."
  else
    Except.ok ⟨d, false, 0⟩

/-- A compressed video packet as `decode` observes it: the payload
identifier, the return value of `avcodec_decode_video2` (`errn`, negative
means a decode error) and whether a complete frame came out
(`frame_finished`). -/
structure AVPacket where
  payload : Nat
  errn : Int
  frame_finished : Bool
deriving DecidableEq

/-- `video_decoder::implementation::decode` (lines 168-197).
`none` is the EOF sentinel: flush and reset `frame_number_` to 0,
return empty.  A packet with negative low-level return throws; a packet
that finishes a frame yields the pair `(frame_number_++, frame)`. -/
def video_decoder_decode (st : DecoderImpl) (pkt : Option AVPacket) :
    Except String (DecoderImpl × List (Nat × Nat)) :=
  match pkt with
  | none => Except.ok ({ st with frame_number := 0 }, [])
  | some p =>
      if p.errn < 0 then
        Except.error "avcodec_decode_video"
      else if p.frame_finished then
        Except.ok ({ st with frame_number := st.frame_number + 1 },
                   [(st.frame_number, p.payload)])
      else
        Except.ok (st, [])

/-- Fold `decode` over a packet list, concatenating the produced
(sequence number, frame) pairs, propagating any decode error. -/
def decodeAll (st : DecoderImpl) : List (Option AVPacket) →
    Except String (DecoderImpl × List (Nat × Nat))
| [] => Except.ok (st, [])
| p :: ps =>
    match video_decoder_decode st p with
    | Except.error e => Except.error e
    | Except.ok (st1, fs) =>
        match decodeAll st1 ps with
        | Except.error e => Except.error e
        | Except.ok (st2, fs2) => Except.ok (st2, fs ++ fs2)

/-- Result of one `receive` call: final decoder state, remaining
upstream queue, produced frames, and the number of packets popped. -/
structure ReceiveResult where
  st : DecoderImpl
  queue : List (Option AVPacket)
  frames : List (Nat × Nat)
  popped : Nat
deriving DecidableEq

/-- The `for(n = 0; n < 32 && result.empty() && try_pop(pkt); ++n)`
loop of `receive` (lines 157-166), with the iteration bound as fuel:
stop when the bound is hit, the upstream queue is empty, or the last
`decode` produced frames. -/
def receiveLoop : Nat → DecoderImpl → List (Option AVPacket) →
    Except String ReceiveResult
| 0, st, q => Except.ok ⟨st, q, [], 0⟩
| _ + 1, st, [] => Except.ok ⟨st, [], [], 0⟩
| n + 1, st, pkt :: rest =>
    match video_decoder_decode st pkt with
    | Except.error e => Except.error e
    | Except.ok (st1, fs) =>
        if fs.isEmpty then
          match receiveLoop n st1 rest with
          | Except.error e => Except.error e
          | Except.ok r => Except.ok ⟨r.st, r.queue, r.frames, r.popped + 1⟩
        else
          Except.ok ⟨st1, rest, fs, 1⟩

/-- `video_decoder::implementation::receive` with its bound of 32. -/
def video_decoder_receive (st : DecoderImpl) (q : List (Option AVPacket)) :
    Except String ReceiveResult :=
  receiveLoop 32 st q

/-- Whether decoding this queue entry would produce a frame: the EOF
sentinel never does; a packet does iff its low-level return is
non-negative and it finishes a frame. -/
def yieldsFrameB : Option AVPacket → Bool
| none => false
| some p => decide (0 ≤ p.errn) && p.frame_finished

/-- `AVMediaType` as far as this code distinguishes it. -/
inductive AVMediaType
| video
| audio
| other
deriving DecidableEq

/-- Per-track encode state of `Stream` that `send` touches when
stamping timestamps: the encoder's media type and the presentation
time counter `pts` (initialized to 0 at construction, line 120). -/
structure StreamSt where
  codec_type : AVMediaType
  pts : Int
deriving DecidableEq

/-- The PTS stamping step of `Stream::send` (lines 350-361) for one
non-EOF input frame: the outgoing native frame gets `frame->pts = pts`,
then the counter advances by 1 for video and by the frame's sample
count for audio.  Returns the stamped PTS (what the filter graph
observes) and the updated stream; `none` for the untimed TODO branch. -/
def Stream_stamp (s : StreamSt) (nb_samples : Nat) : Option Int × StreamSt :=
  match s.codec_type with
  | .video => (some s.pts, { s with pts := s.pts + 1 })
  | .audio => (some s.pts, { s with pts := s.pts + nb_samples })
  | .other => (none, s)

/-- Iterate `Stream_stamp` over a list of input frames (each given by
its sample count), collecting the stamped PTS values in order. -/
def Stream_sendAll (s : StreamSt) : List Nat → List (Option Int) × StreamSt
| [] => ([], s)
| f :: fs =>
    let r := Stream_stamp s f
    let r2 := Stream_sendAll r.2 fs
    (r.1 :: r2.1, r2.2)

/-- Running partial sums: `partialSums c [s1, s2, ...]` is
`[c, c + s1, c + s1 + s2, ...]` (element k is `c` plus the sum of the
first k inputs). -/
def partialSums (c : Int) : List Nat → List Int
| [] => []
| s :: ss => c :: partialSums (c + s) ss

/-- What `avfilter_graph_parse2` hands back to `Stream`'s constructor:
the list of open input pads and the list of open output pads, each
output pad carrying its media type (`avfilter_pad_get_type`). -/
structure ParsedGraph where
  inputs : List Unit
  outputs : List AVMediaType
deriving DecidableEq

/-- Source/sink nodes created and linked by `Stream`'s constructor. -/
structure StreamLinks where
  sources : Nat
  sinks : Nat
deriving DecidableEq

/-- The filter-graph validation and linking part of `Stream::Stream`
(lines 192-280), for a resolved encoder of type `codec_type` and a
parsed graph `g`: the graph must have exactly one input pad (line 197),
the encoder's type selects the buffer source (lines 202-229, anything
but video/audio throws), the graph must have exactly one output pad
(line 269) whose media type equals the encoder's (line 274); then the
single source and single sink are linked. -/
def Stream_build_graph (codec_type : AVMediaType) (g : ParsedGraph) :
    Except String StreamLinks :=
  match g.inputs with
  | [_] =>
      match codec_type with
      | .other => Except.error "invalid filter input media type"
      | _ =>
          match g.outputs with
          | [out_type] =>
              if out_type ≠ codec_type then
                Except.error "invalid filter output media type"
              else
                Except.ok ⟨1, 1⟩
          | _ => Except.error "invalid filter graph output count"
  | _ => Except.error "invalid filter graph input count"

/-- The `ffmpeg_consumer` state the claims touch: the frame queue's
capacity, its contents (front = oldest; `none` is the EOF sentinel
frame), the count of recorded "dropped-frame" diagnostic signals, and
whether the media thread has been started (`frame_thread_.joinable()`). -/
structure FfmpegConsumer where
  capacity : Nat
  frame_buffer : List (Option Nat)
  dropped : Nat
  joinable : Bool
deriving DecidableEq

/-- `ffmpeg_consumer::ffmpeg_consumer` (lines 410-425): the frame
queue's capacity is 1 for realtime sinks and 128 otherwise; no thread
is running yet and no drop has been signalled. -/
def ffmpeg_consumer_new (realtime : Bool) : FfmpegConsumer :=
  ⟨if realtime then 1 else 128, [], 0, false⟩

/-- `ffmpeg_consumer::send` (lines 588-595): `try_push` the frame onto
the bounded queue (succeeds iff the queue is below capacity; a full
queue leaves the queue unchanged and records one "dropped-frame"
signal); in every case return an already-ready future holding `true`. -/
def ffmpeg_consumer_send (c : FfmpegConsumer) (f : Option Nat) :
    FfmpegConsumer × Bool :=
  if c.frame_buffer.length < c.capacity then
    ({ c with frame_buffer := c.frame_buffer ++ [f] }, true)
  else
    ({ c with dropped := c.dropped + 1 }, true)

/-- `ffmpeg_consumer::initialize` (lines 437-448): if the media thread
is already running, throw "Cannot reinitialize ffmpeg-consumer."
leaving the state untouched; otherwise start the media thread. -/
def ffmpeg_consumer_init (c : FfmpegConsumer) :
    FfmpegConsumer × Except String Unit :=
  if c.joinable then
    (c, Except.error "Cannot reinitialize ffmpeg-consumer.")
  else
    ({ c with joinable := true }, Except.ok ())

/-- `send` on a `boost::optional<Stream>` (lines 566-571): absent
stream produces nothing; a present stream runs its `send`, producing
updated state and a list of packets handed to the packet callback. -/
def opt_stream_send {σ : Type} (sendF : σ → Option Nat → σ × List Nat) :
    Option σ → Option Nat → Option σ × List Nat
| none, _ => (none, [])
| some s, f =>
    let r := sendF s f
    (some r.1, r.2)

/-- The media-thread loop (lines 561-578): pop each frame in order,
run the optional video stream's `send` then the optional audio
stream's `send` (every packet the callbacks receive is a real packet,
enqueued as `some _` on the packet queue, lines 559); a popped EOF
sentinel frame (`none`) additionally enqueues the single `none` EOF
sentinel packet and breaks the loop.  `sendF` abstracts the encoder /
filter-graph internals of `Stream::send`. -/
def media_loop {σ τ : Type} (sendV : σ → Option Nat → σ × List Nat)
    (sendA : τ → Option Nat → τ × List Nat) :
    Option σ → Option τ → List (Option Nat) → List (Option Nat)
| _, _, [] => []
| vs, sa, f :: rest =>
    let rv := opt_stream_send sendV vs f
    let ra := opt_stream_send sendA sa f
    let pkts := rv.2.map some ++ ra.2.map some
    match f with
    | none => pkts ++ [none]
    | some _ => pkts ++ media_loop sendV sendA rv.1 ra.1 rest

/-- The packet-writer thread (lines 527-548): pop packets in order,
writing each (`av_interleaved_write_frame`) until the `none` EOF
sentinel, then finalize the container (write trailer, close I/O)
exactly once and exit.  Returns (packets written, finalize count). -/
def packet_thread_run : List (Option Nat) → Nat × Nat
| [] => (0, 0)
| none :: _ => (0, 1)
| some _ :: rest =>
    ((packet_thread_run rest).1 + 1, (packet_thread_run rest).2)

/-- Frames produced by an all-good packet run starting at sequence
number `k`: `(k, payload p1), (k+1, payload p2), ...`. -/
def seqFrames (k : Nat) : List AVPacket → List (Nat × Nat)
| [] => []
| p :: ps => (k, p.payload) :: seqFrames (k + 1) ps

lemma decodeAll_all_good (pkts : List AVPacket) (st : DecoderImpl)
    (hgood : ∀ p ∈ pkts, 0 ≤ p.errn ∧ p.frame_finished = true) :
    decodeAll st (pkts.map some)
      = Except.ok ({ st with frame_number := st.frame_number + pkts.length },
                   seqFrames st.frame_number pkts) := by
  induction pkts generalizing st with
  | nil => simp [decodeAll, seqFrames]
  | cons p ps ih =>
      obtain ⟨h1, h2⟩ := hgood p (List.mem_cons_self p ps)
      have hps : ∀ q ∈ ps, 0 ≤ q.errn ∧ q.frame_finished = true :=
        fun q hq => hgood q (List.mem_cons_of_mem p hq)
      simp only [List.map_cons, decodeAll, video_decoder_decode,
        if_neg (not_lt.mpr h1), h2, if_pos trivial, ite_true,
        ih _ hps, seqFrames, List.length_cons]
      have harith : st.frame_number + 1 + ps.length = st.frame_number + (ps.length + 1) := by
        omega
      simp [harith]

lemma seqFrames_map_fst (k : Nat) (pkts : List AVPacket) :
    (seqFrames k pkts).map Prod.fst = List.range' k pkts.length := by
  induction pkts generalizing k with
  | nil => simp [seqFrames]
  | cons p ps ih => simp [seqFrames, List.range'_succ, ih]

/-- Claim C3: decoding a sequence of N packets that each yield a
complete frame produces frames tagged 0..N-1 in order, and decoding the
EOF sentinel afterwards flushes, resets the sequence counter to 0 (so
the next frame is numbered 0) and returns an empty result. -/
theorem C3_decode_sequence_numbers (pkts : List AVPacket) (st : DecoderImpl)
    (h0 : st.frame_number = 0)
    (hgood : ∀ p ∈ pkts, 0 ≤ p.errn ∧ p.frame_finished = true) :
    ∃ st2, decodeAll st (pkts.map some) = Except.ok (st2, seqFrames 0 pkts) ∧
      (seqFrames 0 pkts).map Prod.fst = List.range pkts.length ∧
      video_decoder_decode st2 none
        = Except.ok ({ st2 with frame_number := 0 }, []) := by
  refine ⟨{ st with frame_number := st.frame_number + pkts.length }, ?_, ?_, ?_⟩
  · rw [decodeAll_all_good pkts st hgood, h0]
  · rw [seqFrames_map_fst, List.range_eq_range']
  · rfl

/-- Witness for C3 at a concrete two-packet run. -/
theorem C3_witness :
    ((⟨⟨pixel_format.invalid, []⟩, false, 0⟩ : DecoderImpl).frame_number = 0) ∧
    (∀ p ∈ [(⟨10, 0, true⟩ : AVPacket), ⟨11, 0, true⟩],
       0 ≤ p.errn ∧ p.frame_finished = true) ∧
    (∃ st2, decodeAll ⟨⟨pixel_format.invalid, []⟩, false, 0⟩
        ([(⟨10, 0, true⟩ : AVPacket), ⟨11, 0, true⟩].map some)
        = Except.ok (st2, seqFrames 0 [⟨10, 0, true⟩, ⟨11, 0, true⟩]) ∧
      (seqFrames 0 [(⟨10, 0, true⟩ : AVPacket), ⟨11, 0, true⟩]).map Prod.fst
        = List.range [(⟨10, 0, true⟩ : AVPacket), ⟨11, 0, true⟩].length ∧
      video_decoder_decode st2 none
        = Except.ok ({ st2 with frame_number := 0 }, [])) :=
  ⟨rfl, by decide,
    C3_decode_sequence_numbers [⟨10, 0, true⟩, ⟨11, 0, true⟩]
      ⟨⟨pixel_format.invalid, []⟩, false, 0⟩ rfl (by decide)⟩

/-- Claim C4: for every unsupported native format the resolver returns
the `invalid` descriptor with no planes, and decoder construction
against it yields the descriptor of the BGRA fallback at the same
geometry when the software scaling context can be created, and fails
with the configuration error when it cannot. -/
theorem C4_fallback_descriptor (pf : AVPixelFormat) (w h : Nat)
    (hinv : get_pixel_format pf = pixel_format.invalid) :
    get_pixel_format_desc pf w h = ⟨pixel_format.invalid, []⟩ ∧
    ∀ sws_ok : Bool,
      decoder_construct pf w h sws_ok
        = if sws_ok then
            Except.ok ⟨get_pixel_format_desc .bgra w h, true, 0⟩
          else
            Except.error "Could not create software scaling context." := by
  have hdesc : get_pixel_format_desc pf w h = ⟨pixel_format.invalid, []⟩ := by
    unfold get_pixel_format_desc
    rw [hinv]
  refine ⟨hdesc, fun sws_ok => ?_⟩
  unfold decoder_construct
  rw [hdesc]
  cases sws_ok <;> simp

/-- Witness for C4 at the unsupported format. -/
theorem C4_witness :
    (get_pixel_format AVPixelFormat.other = pixel_format.invalid) ∧
    (get_pixel_format_desc AVPixelFormat.other 2 2 = ⟨pixel_format.invalid, []⟩ ∧
     ∀ sws_ok : Bool,
       decoder_construct AVPixelFormat.other 2 2 sws_ok
         = if sws_ok then
             Except.ok ⟨get_pixel_format_desc .bgra 2 2, true, 0⟩
           else
             Except.error "Could not create software scaling context.") :=
  ⟨rfl, C4_fallback_descriptor AVPixelFormat.other 2 2 rfl⟩

lemma ceil_div_le (h b : Nat) (hb : 0 < b) : (h + b - 1) / b ≤ h := by
  have hmul : h ≤ h * b := Nat.le_mul_of_pos_right h hb
  have hlt : h + b - 1 < (h + 1) * b := by
    have : (h + 1) * b = h * b + b := by ring
    omega
  have := (Nat.div_lt_iff_lt_mul hb).mpr hlt
  omega

lemma planar_h2_le (cw ch w h : Nat) (hw : 0 < w) (hcw : 0 < cw) (hch : 0 < ch) :
    (w + cw - 1) / cw * ((h + ch - 1) / ch) / ((w + cw - 1) / cw) ≤ h := by
  have hls : 0 < (w + cw - 1) / cw := Nat.div_pos (by omega) hcw
  rw [Nat.mul_div_cancel_left _ hls]
  exact ceil_div_le h ch hch

/-- Claim C5: every supported native format resolves to 1 plane for
gray and the packed 4-channel formats, 3 planes for planar YCbCr, 4 for
YCbCr-with-alpha; the first (luma) plane spans the full height and no
plane (in particular no chroma plane) is taller than it. -/
theorem C5_plane_counts (pf : AVPixelFormat) (w h : Nat) (hw : 0 < w)
    (hsupp : get_pixel_format pf ≠ pixel_format.invalid) :
    (((get_pixel_format_desc pf w h).pix_fmt = .gray ∨
      (get_pixel_format_desc pf w h).pix_fmt = .bgra ∨
      (get_pixel_format_desc pf w h).pix_fmt = .argb ∨
      (get_pixel_format_desc pf w h).pix_fmt = .rgba ∨
      (get_pixel_format_desc pf w h).pix_fmt = .abgr) →
        (get_pixel_format_desc pf w h).planes.length = 1) ∧
    ((get_pixel_format_desc pf w h).pix_fmt = .ycbcr →
        (get_pixel_format_desc pf w h).planes.length = 3) ∧
    ((get_pixel_format_desc pf w h).pix_fmt = .ycbcra →
        (get_pixel_format_desc pf w h).planes.length = 4) ∧
    (((get_pixel_format_desc pf w h).planes.map plane.height)[0]? = some h) ∧
    (∀ p ∈ (get_pixel_format_desc pf w h).planes, p.height ≤ h) := by
  cases pf
  case other => simp [get_pixel_format] at hsupp
  all_goals
    refine ⟨fun hpf => ?_, fun hpf => ?_, fun hpf => ?_, rfl, fun p hp => ?_⟩
  all_goals
    first
      | rfl
      | (simp [get_pixel_format_desc, get_pixel_format] at hpf)
      | · simp only [get_pixel_format_desc, get_pixel_format, av_linesize0,
            av_linesize1, av_plane1_bytes, chroma_w_div, chroma_h_div,
            List.mem_cons, List.not_mem_nil, or_false] at hp
          rcases hp with rfl | rfl | rfl | rfl
          all_goals
            first
              | exact le_refl h
              | exact planar_h2_le 1 1 w h hw (by norm_num) (by norm_num)
              | exact planar_h2_le 2 1 w h hw (by norm_num) (by norm_num)
              | exact planar_h2_le 2 2 w h hw (by norm_num) (by norm_num)
              | exact planar_h2_le 4 1 w h hw (by norm_num) (by norm_num)
              | exact planar_h2_le 4 4 w h hw (by norm_num) (by norm_num)

/-- Witness for C5 at yuv420p, 4x4. -/
theorem C5_witness :
    (0 < 4) ∧
    (get_pixel_format AVPixelFormat.yuv420p ≠ pixel_format.invalid) ∧
    ((((get_pixel_format_desc AVPixelFormat.yuv420p 4 4).pix_fmt = .gray ∨
       (get_pixel_format_desc AVPixelFormat.yuv420p 4 4).pix_fmt = .bgra ∨
       (get_pixel_format_desc AVPixelFormat.yuv420p 4 4).pix_fmt = .argb ∨
       (get_pixel_format_desc AVPixelFormat.yuv420p 4 4).pix_fmt = .rgba ∨
       (get_pixel_format_desc AVPixelFormat.yuv420p 4 4).pix_fmt = .abgr) →
         (get_pixel_format_desc AVPixelFormat.yuv420p 4 4).planes.length = 1) ∧
     ((get_pixel_format_desc AVPixelFormat.yuv420p 4 4).pix_fmt = .ycbcr →
         (get_pixel_format_desc AVPixelFormat.yuv420p 4 4).planes.length = 3) ∧
     ((get_pixel_format_desc AVPixelFormat.yuv420p 4 4).pix_fmt = .ycbcra →
         (get_pixel_format_desc AVPixelFormat.yuv420p 4 4).planes.length = 4) ∧
     (((get_pixel_format_desc AVPixelFormat.yuv420p 4 4).planes.map plane.height)[0]?
        = some 4) ∧
     (∀ p ∈ (get_pixel_format_desc AVPixelFormat.yuv420p 4 4).planes, p.height ≤ 4)) :=
  ⟨by norm_num, by decide, C5_plane_counts AVPixelFormat.yuv420p 4 4 (by norm_num) (by decide)⟩

lemma decode_frames_short (st : DecoderImpl) (pkt : Option AVPacket)
    (st1 : DecoderImpl) (fs : List (Nat × Nat))
    (h : video_decoder_decode st pkt = Except.ok (st1, fs)) :
    fs.length ≤ 1 := by
  cases pkt with
  | none =>
      simp only [video_decoder_decode, Except.ok.injEq, Prod.mk.injEq] at h
      rcases h with ⟨-, h2⟩
      subst h2
      simp
  | some p =>
      simp only [video_decoder_decode] at h
      by_cases he : p.errn < 0
      · simp [he] at h
      · by_cases hf : p.frame_finished
        · simp only [if_neg he, hf, if_true, Except.ok.injEq, Prod.mk.injEq] at h
          rcases h with ⟨-, h2⟩
          subst h2
          simp
        · simp only [if_neg he, hf, if_false, Except.ok.injEq, Prod.mk.injEq,
            Bool.false_eq_true] at h
          rcases h with ⟨-, h2⟩
          subst h2
          simp

lemma decode_empty_no_frame (st : DecoderImpl) (pkt : Option AVPacket)
    (st1 : DecoderImpl) (h : video_decoder_decode st pkt = Except.ok (st1, [])) :
    yieldsFrameB pkt = false := by
  cases pkt with
  | none => rfl
  | some p =>
      simp only [video_decoder_decode] at h
      by_cases he : p.errn < 0
      · simp [he] at h
      · by_cases hf : p.frame_finished
        · simp [if_neg he, hf] at h
        · simp [yieldsFrameB, hf]

lemma receiveLoop_bounded (fuel : Nat) :
    ∀ (st : DecoderImpl) (q : List (Option AVPacket)) (r : ReceiveResult),
      receiveLoop fuel st q = Except.ok r →
        r.popped ≤ fuel ∧ r.frames.length ≤ 1 ∧ r.queue = q.drop r.popped ∧
        ∀ pkt ∈ q.take (r.popped - 1), yieldsFrameB pkt = false := by
  induction fuel with
  | zero =>
      intro st q r h
      simp only [receiveLoop, Except.ok.injEq] at h
      subst h
      simp
  | succ n ih =>
      intro st q r h
      cases q with
      | nil =>
          simp only [receiveLoop, Except.ok.injEq] at h
          subst h
          simp
      | cons pkt rest =>
          rw [receiveLoop] at h
          split at h
          next e heq => simp at h
          next st1 fs heq =>
            split at h
            next hemp =>
              split at h
              next e2 heq2 => simp at h
              next r1 heq2 =>
                simp only [Except.ok.injEq] at h
                subst h
                obtain ⟨hb, hlen, hq, htake⟩ := ih st1 rest r1 heq2
                refine ⟨by simp; omega, hlen, by simpa using hq, ?_⟩
                intro x hx
                rcases Nat.eq_zero_or_pos r1.popped with hz | hpos
                · simp [hz] at hx
                · have hstep : r1.popped + 1 - 1 = (r1.popped - 1) + 1 := by omega
                  simp only [ReceiveResult.popped] at hx
                  rw [hstep, List.take_succ_cons] at hx
                  rcases List.mem_cons.mp hx with rfl | hx2
                  · exact decode_empty_no_frame st x st1
                      (by rwa [List.isEmpty_iff.mp hemp] at heq)
                  · exact htake x hx2
            next hemp =>
              simp only [Except.ok.injEq] at h
              subst h
              exact ⟨by simp, decode_frames_short st pkt st1 fs heq, by simp, by simp⟩

/-- Claim C6: a single `receive` call pops at most 32 packets from the
upstream source, every popped packet before the last yields no frame
(popping stops as soon as a decode produced a frame or the source runs
dry), and at most one decoded frame is returned. -/
theorem C6_receive_bounded (st : DecoderImpl) (q : List (Option AVPacket))
    (r : ReceiveResult) (h : video_decoder_receive st q = Except.ok r) :
    r.popped ≤ 32 ∧ r.frames.length ≤ 1 ∧ r.queue = q.drop r.popped ∧
    ∀ pkt ∈ q.take (r.popped - 1), yieldsFrameB pkt = false :=
  receiveLoop_bounded 32 st q r h

/-- Witness for C6: three queued packets of which the second yields a
frame; `receive` pops two, returns one frame, leaves one queued. -/
theorem C6_witness :
    (video_decoder_receive ⟨⟨pixel_format.invalid, []⟩, false, 0⟩
        [some ⟨1, 0, false⟩, some ⟨2, 0, true⟩, some ⟨3, 0, true⟩]
      = Except.ok ⟨⟨⟨pixel_format.invalid, []⟩, false, 1⟩,
                   [some ⟨3, 0, true⟩], [(0, 2)], 2⟩) ∧
    ((2 : Nat) ≤ 32 ∧ ([((0 : Nat), (2 : Nat))].length ≤ 1) ∧
     ([some (⟨3, 0, true⟩ : AVPacket)]
        = List.drop 2 [some ⟨1, 0, false⟩, some ⟨2, 0, true⟩, some ⟨3, 0, true⟩]) ∧
     ∀ pkt ∈ List.take (2 - 1)
         [some (⟨1, 0, false⟩ : AVPacket), some ⟨2, 0, true⟩, some ⟨3, 0, true⟩],
       yieldsFrameB pkt = false) := by
  refine ⟨rfl, ?_⟩
  exact C6_receive_bounded ⟨⟨pixel_format.invalid, []⟩, false, 0⟩
    [some ⟨1, 0, false⟩, some ⟨2, 0, true⟩, some ⟨3, 0, true⟩]
    ⟨⟨⟨pixel_format.invalid, []⟩, false, 1⟩, [some ⟨3, 0, true⟩], [(0, 2)], 2⟩
    rfl

lemma sendAll_video (c : Int) (fs : List Nat) :
    (Stream_sendAll ⟨AVMediaType.video, c⟩ fs).1
      = (List.range fs.length).map (fun (n : Nat) => some (c + (n : Int))) := by
  induction fs generalizing c with
  | nil => simp [Stream_sendAll]
  | cons f fs ih =>
      simp only [Stream_sendAll, Stream_stamp, List.length_cons,
        List.range_succ_eq_map, List.map_cons, List.map_map, ih]
      congr 1
      · simp
      · refine List.map_congr_left fun n _ => ?_
        simp only [Function.comp_apply, Option.some.injEq, Nat.succ_eq_add_one]
        push_cast
        ring

lemma sendAll_audio (c : Int) (ss : List Nat) :
    (Stream_sendAll ⟨AVMediaType.audio, c⟩ ss).1 = (partialSums c ss).map some := by
  induction ss generalizing c with
  | nil => simp [Stream_sendAll, partialSums]
  | cons s ss ih => simp [Stream_sendAll, Stream_stamp, partialSums, ih]

lemma partialSums_getElem (c : Int) (ss : List Nat) (i : Nat) :
    (partialSums c ss)[i]?
      = if i < ss.length then some (c + ((ss.take i).sum : Int)) else none := by
  induction ss generalizing c i with
  | nil => simp [partialSums]
  | cons s ss ih =>
      cases i with
      | zero => simp [partialSums]
      | succ j =>
          simp only [partialSums, List.getElem?_cons_succ, ih, List.length_cons,
            List.take_succ_cons, List.sum_cons]
          by_cases hj : j < ss.length
          · rw [if_pos hj, if_pos (by omega)]
            congr 1
            push_cast
            ring
          · rw [if_neg hj, if_neg (by omega)]

/-- Claim C2: PTS comes only from the stream's own counter.  A video
stream constructed with counter 0 stamps its Nth sent frame with PTS
N-1; an audio stream stamps its Kth frame with the sum of the sample
counts of the first K-1 frames.  In particular the stamped PTS sequence
is the running-sum sequence, so it is non-decreasing and gap-free. -/
theorem C2_stream_pts_counter (video_frames audio_sizes : List Nat) :
    ((Stream_sendAll ⟨AVMediaType.video, 0⟩ video_frames).1
        = (List.range video_frames.length).map (fun (n : Nat) => some ((n : Int)))) ∧
    ((Stream_sendAll ⟨AVMediaType.audio, 0⟩ audio_sizes).1
        = (partialSums 0 audio_sizes).map some) ∧
    (∀ i : Nat, (partialSums 0 audio_sizes)[i]?
        = if i < audio_sizes.length then some (((audio_sizes.take i).sum : Int))
          else none) := by
  refine ⟨?_, sendAll_audio 0 audio_sizes, fun i => ?_⟩
  · rw [sendAll_video 0 video_frames]
    exact List.map_congr_left fun n _ => by simp
  · rw [partialSums_getElem 0 audio_sizes i]
    by_cases hi : i < audio_sizes.length
    · rw [if_pos hi, if_pos hi]
      simp
    · rw [if_neg hi, if_neg hi]

/-- Claim C7: for a video or audio encoder, `Stream` construction
succeeds - linking exactly one source and one sink node - precisely
when the parsed filter graph has exactly one input pad and exactly one
output pad whose media type equals the encoder's; in every other case
it fails with a hard configuration error (an exception, never a
retry). -/
theorem C7_graph_pad_validation (ct : AVMediaType) (g : ParsedGraph)
    (hct : ct = AVMediaType.video ∨ ct = AVMediaType.audio) :
    (Stream_build_graph ct g = Except.ok ⟨1, 1⟩ ↔
      (g.inputs.length = 1 ∧ g.outputs = [ct])) ∧
    (¬(g.inputs.length = 1 ∧ g.outputs = [ct]) →
      ∃ e, Stream_build_graph ct g = Except.error e) := by
  rcases g with ⟨ins, outs⟩
  rcases ins with - | ⟨-, - | ⟨-, ins⟩⟩ <;>
    rcases hct with rfl | rfl <;>
      rcases outs with - | ⟨t, - | ⟨t2, outs⟩⟩ <;>
        first
          | (cases t <;> simp [Stream_build_graph])
          | simp [Stream_build_graph]

/-- Witness for C7: a video encoder against a graph with one input pad
and one video output pad. -/
theorem C7_witness :
    (AVMediaType.video = AVMediaType.video ∨ AVMediaType.video = AVMediaType.audio) ∧
    ((Stream_build_graph AVMediaType.video ⟨[()], [AVMediaType.video]⟩
        = Except.ok ⟨1, 1⟩ ↔
      ((⟨[()], [AVMediaType.video]⟩ : ParsedGraph).inputs.length = 1 ∧
        (⟨[()], [AVMediaType.video]⟩ : ParsedGraph).outputs = [AVMediaType.video])) ∧
     (¬((⟨[()], [AVMediaType.video]⟩ : ParsedGraph).inputs.length = 1 ∧
         (⟨[()], [AVMediaType.video]⟩ : ParsedGraph).outputs = [AVMediaType.video]) →
       ∃ e, Stream_build_graph AVMediaType.video ⟨[()], [AVMediaType.video]⟩
              = Except.error e)) :=
  ⟨Or.inl rfl,
    C7_graph_pad_validation AVMediaType.video ⟨[()], [AVMediaType.video]⟩ (Or.inl rfl)⟩

/-- Claim C8: `initialize` succeeds at most once per consumer
instance: after a successful first call, a second call raises the
fatal "Cannot reinitialize ffmpeg-consumer." usage error and leaves
the running pipeline state unchanged. -/
theorem C8_init_once (c c2 : FfmpegConsumer)
    (h : ffmpeg_consumer_init c = (c2, Except.ok ())) :
    ffmpeg_consumer_init c2
      = (c2, Except.error "Cannot reinitialize ffmpeg-consumer.") := by
  unfold ffmpeg_consumer_init at h ⊢
  by_cases hj : c.joinable
  · simp [hj] at h
  · simp only [hj, if_false, Bool.false_eq_true, Prod.mk.injEq] at h
    rcases h with ⟨h1, -⟩
    subst h1
    simp

/-- Witness for C8: a fresh realtime consumer initializes once, then
the second call errors. -/
theorem C8_witness :
    (ffmpeg_consumer_init (ffmpeg_consumer_new true)
       = (⟨1, [], 0, true⟩, Except.ok ())) ∧
    (ffmpeg_consumer_init ⟨1, [], 0, true⟩
       = (⟨1, [], 0, true⟩, Except.error "Cannot reinitialize ffmpeg-consumer.")) :=
  ⟨rfl, C8_init_once (ffmpeg_consumer_new true) ⟨1, [], 0, true⟩ rfl⟩

/-- Counterexample to C1 as stated: on a fresh realtime consumer
(capacity 1), pushing frame 0 then frame 1 before the media thread pops
records exactly one dropped-frame signal, but the queue then holds the
FIRST frame, not the most recent one. -/
theorem C1_counterexample :
    (ffmpeg_consumer_new true).capacity = 1 ∧
    (ffmpeg_consumer_send (ffmpeg_consumer_send
        (ffmpeg_consumer_new true) (some 0)).1 (some 1)).1.dropped = 1 ∧
    (ffmpeg_consumer_send (ffmpeg_consumer_send
        (ffmpeg_consumer_new true) (some 0)).1 (some 1)).1.frame_buffer = [some 0] ∧
    (ffmpeg_consumer_send (ffmpeg_consumer_send
        (ffmpeg_consumer_new true) (some 0)).1 (some 1)).1.frame_buffer
      ≠ [some 1] := by
  refine ⟨rfl, rfl, rfl, ?_⟩
  decide

/-- Claim C1 as amended: on a realtime sink (frame queue capacity 1),
pushing two frames via `send` before the media thread pops either
records exactly one dropped-frame signal and leaves the queue holding
only the FIRST of the two frames - the second, more recent frame is the
one dropped (oldest-frame-wins, not latest-frame-wins). -/
theorem C1_realtime_drop_keeps_first (f g : Option Nat) :
    (ffmpeg_consumer_new true).capacity = 1 ∧
    (ffmpeg_consumer_send (ffmpeg_consumer_send
        (ffmpeg_consumer_new true) f).1 g).1.dropped = 1 ∧
    (ffmpeg_consumer_send (ffmpeg_consumer_send
        (ffmpeg_consumer_new true) f).1 g).1.frame_buffer = [f] := by
  refine ⟨rfl, ?_, ?_⟩ <;>
    simp [ffmpeg_consumer_new, ffmpeg_consumer_send]

/-- Claim C10: `send` always returns an already-ready future holding
`true`, whether the frame was enqueued or dropped; a drop is observable
only through the dropped-frame diagnostic signal. -/
theorem C10_send_returns_true (c : FfmpegConsumer) (f : Option Nat) :
    (ffmpeg_consumer_send c f).2 = true := by
  unfold ffmpeg_consumer_send
  by_cases hfull : c.frame_buffer.length < c.capacity <;> simp [hfull]

lemma packet_thread_run_map_some (ps : List Nat) (rest : List (Option Nat)) :
    packet_thread_run (ps.map some ++ rest)
      = ((packet_thread_run rest).1 + ps.length, (packet_thread_run rest).2) := by
  induction ps with
  | nil => simp
  | cons p ps ih =>
      rw [List.map_cons, List.cons_append]
      show ((packet_thread_run (ps.map some ++ rest)).1 + 1,
            (packet_thread_run (ps.map some ++ rest)).2)
          = ((packet_thread_run rest).1 + (p :: ps).length, (packet_thread_run rest).2)
      rw [ih]
      simp [List.length_cons, Nat.add_assoc]

lemma count_none_map_some (ps : List Nat) :
    (ps.map some : List (Option Nat)).count none = 0 := by
  induction ps with
  | nil => rfl
  | cons p ps ih => simpa [List.count_cons] using ih

lemma media_loop_eof {σ τ : Type} (sendV : σ → Option Nat → σ × List Nat)
    (sendA : τ → Option Nat → τ × List Nat)
    (vs : Option σ) (sa : Option τ) (frames : List Nat) :
    (media_loop sendV sendA vs sa (frames.map some ++ [none])).count none = 1 ∧
    (packet_thread_run
        (media_loop sendV sendA vs sa (frames.map some ++ [none]))).2 = 1 := by
  induction frames generalizing vs sa with
  | nil =>
      simp only [List.map_nil, List.nil_append, media_loop]
      constructor
      · rw [List.count_append, ← List.map_append, count_none_map_some]
        rfl
      · rw [← List.map_append, packet_thread_run_map_some]
        rfl
  | cons f fs ih =>
      simp only [List.map_cons, List.cons_append, media_loop, List.append_eq]
      obtain ⟨ih1, ih2⟩ :=
        ih (opt_stream_send sendV vs (some f)).1 (opt_stream_send sendA sa (some f)).1
      constructor
      · rw [List.count_append, ← List.map_append, count_none_map_some, ih1]
      · rw [← List.map_append, packet_thread_run_map_some, ih2]

/-- Claim C9: for any initialized Media Writer (optional video and
audio streams with arbitrary packet production), once the media thread
receives the EOF sentinel frame it enqueues exactly one EOF sentinel
packet on the packet queue, and the packet-writer thread finalizes the
container exactly once - including the run with zero frames before the
sentinel. -/
theorem C9_single_eof_finalize {σ τ : Type}
    (sendV : σ → Option Nat → σ × List Nat)
    (sendA : τ → Option Nat → τ × List Nat)
    (vs : Option σ) (sa : Option τ) (frames : List Nat) :
    (media_loop sendV sendA vs sa (frames.map some ++ [none])).count none = 1 ∧
    (packet_thread_run
        (media_loop sendV sendA vs sa (frames.map some ++ [none]))).2 = 1 :=
  media_loop_eof sendV sendA vs sa frames

end Caspar
